import Mathlib

/-!
Shallow embedding of the GridAI-Trader core modules
(`src/core/grid_engine.py`, `src/core/position_tracker.py`,
`src/core/order_manager.py`, `src/risk/risk_manager.py`, and the
control-loop fragments of `src/main.py`).

Python's real arithmetic is embedded as exact rational arithmetic (ℚ);
`round(x, n)` is Python's round-half-even to `n` decimal places.
Stateful methods become explicit state-passing functions; fallible venue
callbacks become `Except`-valued parameters.
-/

namespace GridAI

/-- Round-half-even to the nearest integer (Python's `round` / banker's
rounding): ties at .5 go to the even integer. -/
def roundHalfEven (q : ℚ) : ℤ :=
  let f : ℤ := ⌊q⌋
  let r : ℚ := q - f
  if r < 1/2 then f
  else if 1/2 < r then f + 1
  else if Even f then f else f + 1

/-- Python `round(x, 2)`. -/
def round2 (q : ℚ) : ℚ := (roundHalfEven (q * 100) : ℚ) / 100

/-- Python `round(x, 8)`. -/
def round8 (q : ℚ) : ℚ := (roundHalfEven (q * 100000000) : ℚ) / 100000000

/-! ### Grid engine (`src/core/grid_engine.py`) -/

/-- `GridSide` enum. -/
inductive GridSide where
  | buy
  | sell
deriving DecidableEq, Repr

/-- `GridLevel` dataclass. -/
structure GridLevel where
  price : ℚ
  side : GridSide
  index : ℕ
  order_id : Option String := none
  is_active : Bool := false
  filled : Bool := false
deriving DecidableEq, Repr

/-- `GridState` dataclass. -/
structure GridState where
  levels : List GridLevel := []
  center_price : ℚ := 0
  upper_bound : ℚ := 0
  lower_bound : ℚ := 0
  num_grids : ℕ := 0
  spacing : ℚ := 0
  regime_multiplier : ℚ := 1
deriving DecidableEq, Repr

/-- The constructor arguments of `GridEngine.__init__`. -/
structure GridEngineCfg where
  num_grids : ℕ := 15
  upper_bound_pct : ℚ := 3
  lower_bound_pct : ℚ := 3
  order_size_usdt : ℚ := 50
  max_open_orders : ℕ := 30
deriving Repr

/-- `GridEngine.set_regime_multiplier`: clamp to `[0.1, 5.0]`. -/
def clampMultiplier (m : ℚ) : ℚ := max (1/10) (min 5 m)

/-- `GridEngine.calculate_grid(current_price)`: geometry plus the
candidate levels at `lower + i·spacing` for `i ∈ [0, num_grids]`, each
rounded to 2 decimals; the rounded price is compared against
`current_price` to assign a side, and a candidate equal to the center is
skipped (`continue`). -/
def calculate_grid (cfg : GridEngineCfg) (mult : ℚ) (current_price : ℚ) : GridState :=
  let effective_upper_pct := cfg.upper_bound_pct * mult
  let effective_lower_pct := cfg.lower_bound_pct * mult
  let upper_bound := current_price * (1 + effective_upper_pct / 100)
  let lower_bound := current_price * (1 - effective_lower_pct / 100)
  let total_range := upper_bound - lower_bound
  let spacing := total_range / cfg.num_grids
  let levels := (List.range (cfg.num_grids + 1)).filterMap fun (i : ℕ) =>
    let price := round2 (lower_bound + (i : ℚ) * spacing)
    if price < current_price then
      some { price := price, side := GridSide.buy, index := i }
    else if current_price < price then
      some { price := price, side := GridSide.sell, index := i }
    else none
  { levels := levels
    center_price := current_price
    upper_bound := round2 upper_bound
    lower_bound := round2 lower_bound
    num_grids := cfg.num_grids
    spacing := round2 spacing
    regime_multiplier := mult }

/-- Python list slicing `l[:n]` for a possibly negative `n` (as produced
by `max_open_orders - active_count`): a negative `n` counts from the
end. -/
def pySliceTo {α : Type} (l : List α) (n : ℤ) : List α :=
  if 0 ≤ n then l.take n.toNat else l.take (l.length - n.natAbs)

/-- `GridEngine.get_orders_to_place()` on an existing grid state. -/
def get_orders_to_place (cfg : GridEngineCfg) (paused : Bool) (st : GridState) :
    List GridLevel :=
  if paused then []
  else
    let active_count := (st.levels.filter fun l => l.is_active).length
    let available_slots : ℤ := (cfg.max_open_orders : ℤ) - active_count
    let pending := st.levels.filter fun l => !l.is_active && !l.filled
    pySliceTo pending available_slots

/-- The dict returned by `GridEngine.get_counter_order`. -/
structure CounterOrder where
  side : GridSide
  price : ℚ
  amount : ℚ
  source_index : ℕ
deriving DecidableEq, Repr

/-- `GridEngine.get_counter_order(filled_level)` on an existing grid
state. -/
def get_counter_order (cfg : GridEngineCfg) (st : GridState)
    (filled_level : GridLevel) : Option CounterOrder :=
  let counter_price :=
    if filled_level.side = GridSide.buy then filled_level.price + st.spacing
    else filled_level.price - st.spacing
  let counter_side :=
    if filled_level.side = GridSide.buy then GridSide.sell else GridSide.buy
  if counter_price < st.lower_bound ∨ st.upper_bound < counter_price then none
  else
    some { side := counter_side
           price := round2 counter_price
           amount := round8 (cfg.order_size_usdt / counter_price)
           source_index := filled_level.index }

/-! ### Position tracker (`src/core/position_tracker.py`)

The SQLite persistence is not modelled; the in-memory ledger fields and
the arithmetic of the recording methods are. -/

/-- The in-memory ledger of `PositionTracker`. -/
structure TrackerState where
  initial_capital : ℚ := 0
  current_capital : ℚ := 0
  peak_capital : ℚ := 0
  btc_held : ℚ := 0
  total_fees : ℚ := 0
deriving DecidableEq, Repr

/-- `PositionTracker.initialize(capital)`. -/
def initTracker (capital : ℚ) : TrackerState :=
  { initial_capital := capital
    current_capital := capital
    peak_capital := capital }

/-- `PositionTracker.record_buy(price, amount, fee)`: subtracts the cost
unconditionally (no pre-check). -/
def record_buy (s : TrackerState) (price amount fee : ℚ) : TrackerState :=
  let cost := price * amount + fee
  { s with
    current_capital := s.current_capital - cost
    btc_held := s.btc_held + amount
    total_fees := s.total_fees + fee }

/-- `PositionTracker.record_sell(price, amount, fee)`. -/
def record_sell (s : TrackerState) (price amount fee : ℚ) : TrackerState :=
  let revenue := price * amount - fee
  let current' := s.current_capital + revenue
  { s with
    current_capital := current'
    btc_held := s.btc_held - amount
    total_fees := s.total_fees + fee
    peak_capital := if s.peak_capital < current' then current' else s.peak_capital }

/-- `PositionTracker.drawdown_pct()`. -/
def drawdown_pct (s : TrackerState) : ℚ :=
  if s.peak_capital ≤ 0 then 0
  else (s.peak_capital - s.current_capital) / s.peak_capital * 100

/-! ### Risk manager (`src/risk/risk_manager.py`) -/

/-- `RiskAction` enum. -/
inductive RiskAction where
  | OK
  | WARN
  | PAUSE
  | EMERGENCY_STOP
deriving DecidableEq, Repr

/-- `RiskCheck` dataclass. -/
structure RiskCheck where
  name : String
  action : RiskAction
  value : ℚ
  threshold : ℚ
  message : String
deriving DecidableEq, Repr

/-- `RiskStatus` dataclass (the timestamp field is not modelled). -/
structure RiskStatus where
  overall_action : RiskAction
  checks : List RiskCheck
  paused : Bool
  pause_reason : String
deriving DecidableEq, Repr

/-- The constructor arguments of `RiskManager.__init__`. -/
structure RiskCfg where
  max_drawdown_pct : ℚ := 15
  max_capital_deployed_pct : ℚ := 50
  daily_loss_cap_usdt : ℚ := 500
  emergency_stop_loss_pct : ℚ := 10
  max_orders_per_day : ℕ := 200
  max_fee_pct : ℚ := 1/2
  slippage_tolerance_pct : ℚ := 1/10
deriving Repr

/-- The mutable latch of `RiskManager` (`_paused`, `_pause_reason`). -/
structure RiskMgrState where
  paused : Bool := false
  pause_reason : String := ""
deriving DecidableEq, Repr

/-- The arguments of `RiskManager.evaluate`. -/
structure RiskInput where
  drawdown_pct : ℚ
  capital_deployed_pct : ℚ
  daily_pnl : ℚ
  daily_order_count : ℕ
  total_fees : ℚ
  initial_capital : ℚ
deriving DecidableEq, Repr

/-- Python `f"{q:.1f}"` (one decimal, round-half-even), as used in the
risk-check messages. -/
def fmt1 (q : ℚ) : String :=
  let n := roundHalfEven (q * 10)
  (if n < 0 then "-" else "") ++ toString (n.natAbs / 10) ++ "." ++ toString (n.natAbs % 10)

/-- Python `f"{q:.2f}"` (two decimals, round-half-even). -/
def fmt2 (q : ℚ) : String :=
  let n := roundHalfEven (q * 100)
  (if n < 0 then "-" else "") ++ toString (n.natAbs / 100) ++ "." ++
    toString (n.natAbs % 100 / 10) ++ toString (n.natAbs % 10)

/-- `RiskManager._check_drawdown`. -/
def check_drawdown (cfg : RiskCfg) (dd : ℚ) : RiskCheck :=
  if cfg.emergency_stop_loss_pct ≤ dd then
    { name := "drawdown", action := RiskAction.EMERGENCY_STOP, value := dd
      threshold := cfg.emergency_stop_loss_pct
      message := "EMERGENCY: Drawdown " ++ fmt1 dd ++ "% >= " ++
        fmt1 cfg.emergency_stop_loss_pct ++ "%" }
  else if cfg.max_drawdown_pct ≤ dd then
    { name := "drawdown", action := RiskAction.PAUSE, value := dd
      threshold := cfg.max_drawdown_pct
      message := "Drawdown " ++ fmt1 dd ++ "% >= " ++ fmt1 cfg.max_drawdown_pct ++ "%" }
  else if cfg.max_drawdown_pct * (4/5) ≤ dd then
    { name := "drawdown", action := RiskAction.WARN, value := dd
      threshold := cfg.max_drawdown_pct
      message := "Drawdown approaching limit: " ++ fmt1 dd ++ "%" }
  else
    { name := "drawdown", action := RiskAction.OK, value := dd
      threshold := cfg.max_drawdown_pct, message := "OK" }

/-- `RiskManager._check_capital_deployed`. -/
def check_capital_deployed (cfg : RiskCfg) (deployed : ℚ) : RiskCheck :=
  if cfg.max_capital_deployed_pct ≤ deployed then
    { name := "capital_deployed", action := RiskAction.PAUSE, value := deployed
      threshold := cfg.max_capital_deployed_pct
      message := "Capital deployed " ++ fmt1 deployed ++ "% >= " ++
        fmt1 cfg.max_capital_deployed_pct ++ "%" }
  else if cfg.max_capital_deployed_pct * (4/5) ≤ deployed then
    { name := "capital_deployed", action := RiskAction.WARN, value := deployed
      threshold := cfg.max_capital_deployed_pct
      message := "Capital deployed approaching limit: " ++ fmt1 deployed ++ "%" }
  else
    { name := "capital_deployed", action := RiskAction.OK, value := deployed
      threshold := cfg.max_capital_deployed_pct, message := "OK" }

/-- `RiskManager._check_daily_loss`. -/
def check_daily_loss (cfg : RiskCfg) (daily_pnl : ℚ) : RiskCheck :=
  if daily_pnl ≤ -cfg.daily_loss_cap_usdt then
    { name := "daily_loss", action := RiskAction.PAUSE, value := |daily_pnl|
      threshold := cfg.daily_loss_cap_usdt
      message := "Daily loss $" ++ fmt2 |daily_pnl| ++ " >= cap $" ++
        fmt2 cfg.daily_loss_cap_usdt }
  else
    { name := "daily_loss", action := RiskAction.OK, value := |daily_pnl|
      threshold := cfg.daily_loss_cap_usdt, message := "OK" }

/-- `RiskManager._check_order_count`. -/
def check_order_count (cfg : RiskCfg) (count : ℕ) : RiskCheck :=
  if cfg.max_orders_per_day ≤ count then
    { name := "order_count", action := RiskAction.PAUSE, value := count
      threshold := cfg.max_orders_per_day
      message := "Daily orders " ++ toString count ++ " >= " ++
        toString cfg.max_orders_per_day }
  else
    { name := "order_count", action := RiskAction.OK, value := count
      threshold := cfg.max_orders_per_day, message := "OK" }

/-- `RiskManager._check_fees`. -/
def check_fees (cfg : RiskCfg) (total_fees initial_capital : ℚ) : RiskCheck :=
  if initial_capital ≤ 0 then
    { name := "fees", action := RiskAction.OK, value := 0, threshold := 0
      message := "OK" }
  else
    let fee_pct := total_fees / initial_capital * 100
    if cfg.max_fee_pct ≤ fee_pct then
      { name := "fees", action := RiskAction.WARN, value := fee_pct
        threshold := cfg.max_fee_pct
        message := "Total fees " ++ fmt2 fee_pct ++ "% of capital" }
    else
      { name := "fees", action := RiskAction.OK, value := fee_pct
        threshold := cfg.max_fee_pct, message := "OK" }

/-- `RiskManager._escalate`'s priority table. -/
def riskPriority : RiskAction → ℕ
  | RiskAction.OK => 0
  | RiskAction.WARN => 1
  | RiskAction.PAUSE => 2
  | RiskAction.EMERGENCY_STOP => 3

/-- `RiskManager._escalate`. -/
def escalate (current new : RiskAction) : RiskAction :=
  if riskPriority current < riskPriority new then new else current

/-- The five checks of `RiskManager.evaluate`, in evaluation order. -/
def riskChecks (cfg : RiskCfg) (inp : RiskInput) : List RiskCheck :=
  [check_drawdown cfg inp.drawdown_pct,
   check_capital_deployed cfg inp.capital_deployed_pct,
   check_daily_loss cfg inp.daily_pnl,
   check_order_count cfg inp.daily_order_count,
   check_fees cfg inp.total_fees inp.initial_capital]

/-- Whether a check counts as breached in `RiskManager.evaluate`. -/
def isBreached (c : RiskCheck) : Bool :=
  c.action = RiskAction.PAUSE ∨ c.action = RiskAction.EMERGENCY_STOP

/-- `RiskManager.evaluate`: returns the updated latch state and the
`RiskStatus`. -/
def evaluate (cfg : RiskCfg) (s : RiskMgrState) (inp : RiskInput) :
    RiskMgrState × RiskStatus :=
  let checks := riskChecks cfg inp
  let worst_action := checks.foldl (fun w c => escalate w c.action) RiskAction.OK
  let s' :=
    if worst_action = RiskAction.PAUSE ∨ worst_action = RiskAction.EMERGENCY_STOP then
      let breached := checks.filter isBreached
      { paused := true
        pause_reason := String.intercalate "; " (breached.map (fun c => c.message)) }
    else s
  (s', { overall_action := worst_action, checks := checks, paused := s'.paused
         pause_reason := s'.pause_reason })

/-- `RiskManager.reset_pause()`. -/
def reset_pause : RiskMgrState := { paused := false, pause_reason := "" }

/-- `RiskManager.can_place_order()`. -/
def can_place_order (s : RiskMgrState) : Bool := !s.paused

/-- A sequence of `evaluate` calls, threading the latch state. -/
def evalSeq (cfg : RiskCfg) (s : RiskMgrState) (inps : List RiskInput) : RiskMgrState :=
  inps.foldl (fun st inp => (evaluate cfg st inp).1) s

/-! ### Order manager (`src/core/order_manager.py`)

`self._orders` is a Python dict (insertion-ordered, unique keys),
embedded as an association list. Venue callbacks are embedded as
`Except`-valued parameters: `Except.error` stands for the callback
raising on every retry attempt (so `_retry_call` raises), `Except.ok`
for some attempt succeeding. Timestamps (`datetime.now`) are threaded
through as an explicit `now` string. -/

/-- `OrderRecord` dataclass (`created_at` is not modelled). -/
structure OrderRecord where
  order_id : String
  side : String
  price : ℚ
  amount : ℚ
  status : String
  grid_index : ℕ
  filled_at : Option String := none
  fee : ℚ := 0
deriving DecidableEq, Repr

/-- The parts of a `fetch_order` response read by `check_order_status`:
`result.get("status", "unknown")` and
`(result.get("fee") or {}).get("cost", 0.0)` (the two dict lookups with
defaults collapse into one `Option`). -/
structure FetchResult where
  status : Option String := none
  feeCost : Option ℚ := none
deriving DecidableEq, Repr

/-- The Python-dict update pattern
`if order_id in self._orders: mutate self._orders[order_id]`:
apply `f` to the record stored under `k`, when present. -/
def updateKey {β : Type} (f : β → β) (k : String) (l : List (String × β)) :
    List (String × β) :=
  l.map fun p => if p.1 = k then (p.1, f p.2) else p

/-- The record update performed by `check_order_status` once a status
has been fetched: always overwrite `status`; when it is `"closed"`,
also stamp `filled_at` and capture the venue-reported fee. -/
def applyStatusUpdate (r : OrderRecord) (status : String) (feeCost : Option ℚ)
    (now : String) : OrderRecord :=
  if status = "closed" then
    { r with status := status, filled_at := some now, fee := feeCost.getD 0 }
  else
    { r with status := status }

/-- `OrderManager.check_order_status(order_id)` in live mode: fetch from
the venue (`none` on a fetch that keeps failing, mirroring the
`except`-path returning `None`), then update the local record if the id
is known. -/
def check_order_status (fetch : String → Except Unit FetchResult) (now : String)
    (orders : List (String × OrderRecord)) (oid : String) :
    Option String × List (String × OrderRecord) :=
  match fetch oid with
  | Except.error _ => (none, orders)
  | Except.ok r =>
    let status := r.status.getD "unknown"
    (some status,
     updateKey (fun rec => applyStatusUpdate rec status r.feeCost now) oid orders)

/-- The loop body of `OrderManager.reconcile_orders`: walk the order ids
in insertion order; for each locally-OPEN order the venue no longer
lists, poll it and collect it when the poll reports `"closed"`. -/
def reconcileGo (exchange_ids : List String) (fetch : String → Except Unit FetchResult)
    (now : String) :
    List String → List (String × OrderRecord) → List String × List (String × OrderRecord)
  | [], orders => ([], orders)
  | oid :: rest, orders =>
    match orders.lookup oid with
    | none => reconcileGo exchange_ids fetch now rest orders
    | some record =>
      if record.status = "open" ∧ oid ∉ exchange_ids then
        let res := check_order_status fetch now orders oid
        let rec' := reconcileGo exchange_ids fetch now rest res.2
        (if res.1 = some "closed" then oid :: rec'.1 else rec'.1, rec'.2)
      else reconcileGo exchange_ids fetch now rest orders

/-- `OrderManager.reconcile_orders()`: empty in dry-run mode; empty when
the venue's open-order fetch fails; otherwise compare local OPEN orders
against the venue's open set. -/
def reconcile_orders (dry_run : Bool) (venueOpen : Except Unit (List String))
    (fetch : String → Except Unit FetchResult) (now : String)
    (orders : List (String × OrderRecord)) :
    List String × List (String × OrderRecord) :=
  if dry_run then ([], orders)
  else
    match venueOpen with
    | Except.error _ => ([], orders)
    | Except.ok exchange_ids =>
      reconcileGo exchange_ids fetch now (orders.map Prod.fst) orders

/-- Mark a local record cancelled, as `cancel_order` does
(`if order_id in self._orders: ... status = "cancelled"`). -/
def markCancelled (orders : List (String × OrderRecord)) (oid : String) :
    List (String × OrderRecord) :=
  updateKey (fun rec => { rec with status := "cancelled" }) oid orders

/-- `OrderManager.cancel_order(order_id)` with a cancel callback
configured; `cancelResult` is the outcome of `_retry_call` on the venue
cancel (error = raised on every attempt). -/
def cancel_order (dry_run : Bool) (cancelResult : Except Unit Unit)
    (orders : List (String × OrderRecord)) (oid : String) :
    Bool × List (String × OrderRecord) :=
  if dry_run then (true, markCancelled orders oid)
  else
    match cancelResult with
    | Except.error _ => (false, orders)
    | Except.ok _ => (true, markCancelled orders oid)

/-! ### Control-loop fill handler (`src/main.py`, `GridAITrader._handle_fill`) -/

/-- The fee computed by `_handle_fill`:
`fee = record.price * record.amount * 0.001`. The venue-reported
`record.fee` field is not read by the handler. -/
def handleFillFee (record : OrderRecord) : ℚ :=
  record.price * record.amount * (1/1000)

/-- The position update performed by `_handle_fill` for a fill of
`record`: `record_buy` for a BUY, `record_sell` otherwise, each with
the handler's computed fee. -/
def handleFillPosition (pos : TrackerState) (record : OrderRecord) : TrackerState :=
  let fee := handleFillFee record
  if record.side = "buy" then record_buy pos record.price record.amount fee
  else record_sell pos record.price record.amount fee

/-! ### Abbreviations for expressions of the source, used to state
properties -/

/-- The unrounded upper bound computed inside `calculate_grid`. -/
def rawUpper (cfg : GridEngineCfg) (mult price : ℚ) : ℚ :=
  price * (1 + cfg.upper_bound_pct * mult / 100)

/-- The unrounded lower bound computed inside `calculate_grid`. -/
def rawLower (cfg : GridEngineCfg) (mult price : ℚ) : ℚ :=
  price * (1 - cfg.lower_bound_pct * mult / 100)

/-- The unrounded spacing computed inside `calculate_grid`. -/
def rawSpacing (cfg : GridEngineCfg) (mult price : ℚ) : ℚ :=
  (rawUpper cfg mult price - rawLower cfg mult price) / cfg.num_grids

/-- The counter price computed inside `get_counter_order`. -/
def counterPrice (st : GridState) (filled_level : GridLevel) : ℚ :=
  if filled_level.side = GridSide.buy then filled_level.price + st.spacing
  else filled_level.price - st.spacing

/-- Distance of a level's price from the grid's center, as used by the
spec's ordering claim for `get_orders_to_place`. -/
def centerDistance (st : GridState) (l : GridLevel) : ℚ :=
  |l.price - st.center_price|

/-! ## Theorems

### Rounding lemmas -/

theorem roundHalfEven_ge_floor (q : ℚ) : ⌊q⌋ ≤ roundHalfEven q := by
  unfold roundHalfEven
  dsimp only
  split
  · exact le_refl _
  · split
    · exact le_of_lt (lt_add_one _)
    · split
      · exact le_refl _
      · exact le_of_lt (lt_add_one _)

theorem roundHalfEven_le_floor_add_one (q : ℚ) : roundHalfEven q ≤ ⌊q⌋ + 1 := by
  unfold roundHalfEven
  dsimp only
  split
  · exact le_of_lt (lt_add_one _)
  · split
    · exact le_refl _
    · split
      · exact le_of_lt (lt_add_one _)
      · exact le_refl _

theorem roundHalfEven_eq_floor {q : ℚ} (h : q - ⌊q⌋ < 1/2) :
    roundHalfEven q = ⌊q⌋ := by
  unfold roundHalfEven
  dsimp only
  rw [if_pos h]

theorem roundHalfEven_eq_ceil {q : ℚ} (h : 1/2 < q - ⌊q⌋) :
    roundHalfEven q = ⌊q⌋ + 1 := by
  unfold roundHalfEven
  dsimp only
  rw [if_neg (by linarith), if_pos h]

theorem roundHalfEven_mono {x y : ℚ} (h : x ≤ y) :
    roundHalfEven x ≤ roundHalfEven y := by
  have hf : ⌊x⌋ ≤ ⌊y⌋ := Int.floor_le_floor h
  rcases lt_or_eq_of_le hf with hlt | heq
  · calc roundHalfEven x ≤ ⌊x⌋ + 1 := roundHalfEven_le_floor_add_one x
      _ ≤ ⌊y⌋ := hlt
      _ ≤ roundHalfEven y := roundHalfEven_ge_floor y
  · -- same floor: compare fractional parts
    have hr : x - (⌊x⌋ : ℚ) ≤ y - (⌊y⌋ : ℚ) := by
      have : ((⌊x⌋ : ℤ) : ℚ) = ((⌊y⌋ : ℤ) : ℚ) := by exact_mod_cast heq
      linarith
    rcases lt_trichotomy (x - (⌊x⌋ : ℚ)) (1/2) with hx | hx | hx
    · rw [roundHalfEven_eq_floor hx, heq]
      exact roundHalfEven_ge_floor y
    · rcases lt_or_eq_of_le (hx ▸ hr) with hy | hy
      · rw [roundHalfEven_eq_ceil hy, ← heq]
        exact roundHalfEven_le_floor_add_one x
      · -- both fractions are exactly 1/2 and floors agree, so x = y
        have hxy : x = y := by
          have : ((⌊x⌋ : ℤ) : ℚ) = ((⌊y⌋ : ℤ) : ℚ) := by exact_mod_cast heq
          linarith
        rw [hxy]
    · have hy : 1/2 < y - (⌊y⌋ : ℚ) := lt_of_lt_of_le hx hr
      rw [roundHalfEven_eq_ceil hx, roundHalfEven_eq_ceil hy, heq]

theorem roundHalfEven_sub_le (q : ℚ) : |(roundHalfEven q : ℚ) - q| ≤ 1/2 := by
  have h1 : (⌊q⌋ : ℚ) ≤ q := Int.floor_le q
  have h2 : q < (⌊q⌋ : ℚ) + 1 := Int.lt_floor_add_one q
  rw [abs_le]
  unfold roundHalfEven
  dsimp only
  split
  · rename_i hr
    constructor <;> [linarith; linarith]
  · rename_i hr
    push_neg at hr
    split
    · rename_i hr'
      push_cast
      constructor <;> [linarith; linarith]
    · rename_i hr'
      push_neg at hr'
      have : q - (⌊q⌋ : ℚ) = 1/2 := le_antisymm hr' hr
      split
      · constructor <;> [linarith; linarith]
      · push_cast
        constructor <;> [linarith; linarith]

theorem round2_mono {x y : ℚ} (h : x ≤ y) : round2 x ≤ round2 y := by
  unfold round2
  have h100 : x * 100 ≤ y * 100 := by linarith
  have := roundHalfEven_mono h100
  have hc : ((roundHalfEven (x * 100) : ℤ) : ℚ) ≤ ((roundHalfEven (y * 100) : ℤ) : ℚ) := by
    exact_mod_cast this
  linarith

theorem round2_sub_le (q : ℚ) : |round2 q - q| ≤ 1/200 := by
  unfold round2
  have h := roundHalfEven_sub_le (q * 100)
  rw [abs_le] at h ⊢
  constructor <;> [linarith; linarith]

/-! ### Association-list lemmas for the order map -/

theorem updateKey_nil {β : Type} (f : β → β) (k : String) :
    updateKey f k ([] : List (String × β)) = [] := rfl

theorem updateKey_cons {β : Type} (f : β → β) (k a : String) (b : β)
    (t : List (String × β)) :
    updateKey f k ((a, b) :: t)
      = (if a = k then (a, f b) else (a, b)) :: updateKey f k t := by
  by_cases hk : a = k
  · rw [if_pos hk]
    show (if a = k then (a, f b) else (a, b)) :: updateKey f k t = _
    rw [if_pos hk]
  · rw [if_neg hk]
    show (if a = k then (a, f b) else (a, b)) :: updateKey f k t = _
    rw [if_neg hk]

theorem lookup_cons_of_ne {β : Type} {k a : String} (h : (k == a) = false)
    (b : β) (t : List (String × β)) :
    ((a, b) :: t).lookup k = t.lookup k := by
  rw [List.lookup_cons, h]

theorem lookup_updateKey_self {β : Type} (f : β → β) (k : String)
    (l : List (String × β)) (v : β) (h : l.lookup k = some v) :
    (updateKey f k l).lookup k = some (f v) := by
  induction l with
  | nil => exact absurd h (by simp)
  | cons p t ih =>
    rcases p with ⟨a, b⟩
    rw [updateKey_cons]
    by_cases hk : a = k
    · subst hk
      rw [List.lookup_cons_self] at h
      have hif : (if a = a then (a, f b) else (a, b)) = (a, f b) := if_pos rfl
      rw [hif, List.lookup_cons_self]
      rw [Option.some_inj] at h
      rw [h]
    · have hk' : (k == a) = false := beq_eq_false_iff_ne.mpr (fun hc => hk hc.symm)
      rw [lookup_cons_of_ne hk'] at h
      rw [if_neg hk, lookup_cons_of_ne hk']
      exact ih h

theorem lookup_updateKey_none {β : Type} (f : β → β) (k : String)
    (l : List (String × β)) (h : l.lookup k = none) :
    (updateKey f k l).lookup k = none := by
  induction l with
  | nil => rfl
  | cons p t ih =>
    rcases p with ⟨a, b⟩
    rw [updateKey_cons]
    by_cases hk : a = k
    · subst hk
      rw [List.lookup_cons_self] at h
      exact absurd h (by simp)
    · have hk' : (k == a) = false := beq_eq_false_iff_ne.mpr (fun hc => hk hc.symm)
      rw [lookup_cons_of_ne hk'] at h
      rw [if_neg hk, lookup_cons_of_ne hk']
      exact ih h

theorem lookup_updateKey_ne {β : Type} (f : β → β) (k k' : String)
    (l : List (String × β)) (h : k' ≠ k) :
    (updateKey f k l).lookup k' = l.lookup k' := by
  induction l with
  | nil => rfl
  | cons p t ih =>
    rcases p with ⟨a, b⟩
    rw [updateKey_cons]
    by_cases hk : a = k
    · subst hk
      have hk' : (k' == a) = false := beq_eq_false_iff_ne.mpr h
      rw [if_pos rfl, lookup_cons_of_ne hk', lookup_cons_of_ne hk']
      exact ih
    · by_cases ha : k' = a
      · subst ha
        rw [if_neg hk, List.lookup_cons_self, List.lookup_cons_self]
      · have ha' : (k' == a) = false := beq_eq_false_iff_ne.mpr ha
        rw [if_neg hk, lookup_cons_of_ne ha', lookup_cons_of_ne ha']
        exact ih

theorem keys_updateKey {β : Type} (f : β → β) (k : String) (l : List (String × β)) :
    (updateKey f k l).map Prod.fst = l.map Prod.fst := by
  induction l with
  | nil => rfl
  | cons p t ih =>
    rcases p with ⟨a, b⟩
    rw [updateKey_cons, List.map_cons, List.map_cons, ih]
    by_cases hk : a = k
    · rw [if_pos hk]
    · rw [if_neg hk]

/-! ### C1 -/

/-- C1 (counterexample): the stored (2-decimal-rounded) bounds can
violate `lower_bound < center_price < upper_bound`: at
`current_price = 0.004` with `num_grids = 10`, both percentages 2.0 and
multiplier 1.0, the unrounded upper bound 0.00408 rounds to 0, which is
below the center price. -/
theorem c1_rounded_bound_collapses :
    (calculate_grid
      { num_grids := 10, upper_bound_pct := 2, lower_bound_pct := 2,
        order_size_usdt := 50, max_open_orders := 30 } 1 (1/250)).upper_bound = 0 ∧
    (calculate_grid
      { num_grids := 10, upper_bound_pct := 2, lower_bound_pct := 2,
        order_size_usdt := 50, max_open_orders := 30 } 1 (1/250)).center_price = 1/250 ∧
    ¬ ((calculate_grid
      { num_grids := 10, upper_bound_pct := 2, lower_bound_pct := 2,
        order_size_usdt := 50, max_open_orders := 30 } 1 (1/250)).center_price
        < (calculate_grid
          { num_grids := 10, upper_bound_pct := 2, lower_bound_pct := 2,
            order_size_usdt := 50, max_open_orders := 30 } 1 (1/250)).upper_bound) := by
  refine ⟨?_, rfl, ?_⟩
  · norm_num [calculate_grid, round2, roundHalfEven]
  · norm_num [calculate_grid, round2, roundHalfEven]

/-- C1 (amended): for every positive price and valid configuration the
unrounded bounds strictly straddle the center and satisfy
`upper − lower = num_grids · spacing` exactly; the stored 2-decimal
values satisfy it up to rounding tolerance `(num_grids + 2)/200`; every
stored level price lies within the stored `[lower_bound, upper_bound]`;
every level's stored price differs from the center (the candidate equal
to the center is omitted), with BUY strictly below and SELL strictly
above it; and the 50000-centered example yields exactly the expected
state: bounds 49000/51000, spacing 200 and ten levels with index 5
omitted. -/
theorem c1_grid_geometry (cfg : GridEngineCfg) (mult price : ℚ)
    (hg : 2 ≤ cfg.num_grids) (hu : 0 < cfg.upper_bound_pct)
    (hl : 0 < cfg.lower_bound_pct) (hm1 : 1/10 ≤ mult) (hm2 : mult ≤ 5)
    (hp : 0 < price) :
    rawLower cfg mult price < price ∧
    price < rawUpper cfg mult price ∧
    rawUpper cfg mult price - rawLower cfg mult price
      = (cfg.num_grids : ℚ) * rawSpacing cfg mult price ∧
    |(calculate_grid cfg mult price).upper_bound
        - (calculate_grid cfg mult price).lower_bound
        - ((calculate_grid cfg mult price).num_grids : ℚ)
          * (calculate_grid cfg mult price).spacing|
      ≤ ((cfg.num_grids : ℚ) + 2) / 200 ∧
    (∀ l ∈ (calculate_grid cfg mult price).levels,
      (calculate_grid cfg mult price).lower_bound ≤ l.price ∧
      l.price ≤ (calculate_grid cfg mult price).upper_bound) ∧
    (∀ l ∈ (calculate_grid cfg mult price).levels,
      l.price ≠ (calculate_grid cfg mult price).center_price ∧
      ((l.side = GridSide.buy ∧ l.price < (calculate_grid cfg mult price).center_price) ∨
       (l.side = GridSide.sell ∧ (calculate_grid cfg mult price).center_price < l.price))) ∧
    calculate_grid
      { num_grids := 10, upper_bound_pct := 2, lower_bound_pct := 2,
        order_size_usdt := 50, max_open_orders := 30 } 1 50000
      = { levels :=
            [{ price := 49000, side := GridSide.buy, index := 0 },
             { price := 49200, side := GridSide.buy, index := 1 },
             { price := 49400, side := GridSide.buy, index := 2 },
             { price := 49600, side := GridSide.buy, index := 3 },
             { price := 49800, side := GridSide.buy, index := 4 },
             { price := 50200, side := GridSide.sell, index := 6 },
             { price := 50400, side := GridSide.sell, index := 7 },
             { price := 50600, side := GridSide.sell, index := 8 },
             { price := 50800, side := GridSide.sell, index := 9 },
             { price := 51000, side := GridSide.sell, index := 10 }],
          center_price := 50000, upper_bound := 51000, lower_bound := 49000,
          num_grids := 10, spacing := 200, regime_multiplier := 1 } := by
  have hmpos : 0 < mult := lt_of_lt_of_le (by norm_num) hm1
  have heU : 0 < cfg.upper_bound_pct * mult := mul_pos hu hmpos
  have heL : 0 < cfg.lower_bound_pct * mult := mul_pos hl hmpos
  have hg0 : (0 : ℚ) < (cfg.num_grids : ℚ) := by
    have : 0 < cfg.num_grids := by omega
    exact_mod_cast this
  have hlow : rawLower cfg mult price < price := by
    unfold rawLower
    nlinarith [mul_pos hp heL]
  have hupp : price < rawUpper cfg mult price := by
    unfold rawUpper
    nlinarith [mul_pos hp heU]
  have hull : rawLower cfg mult price < rawUpper cfg mult price :=
    lt_trans hlow hupp
  have hident : rawUpper cfg mult price - rawLower cfg mult price
      = (cfg.num_grids : ℚ) * rawSpacing cfg mult price := by
    unfold rawSpacing
    rw [mul_comm]
    exact (div_mul_cancel₀ _ (ne_of_gt hg0)).symm
  have hs0 : 0 < rawSpacing cfg mult price := by
    unfold rawSpacing
    exact div_pos (by linarith) hg0
  have hub : (calculate_grid cfg mult price).upper_bound
      = round2 (rawUpper cfg mult price) := rfl
  have hlb : (calculate_grid cfg mult price).lower_bound
      = round2 (rawLower cfg mult price) := rfl
  have hsp : (calculate_grid cfg mult price).spacing
      = round2 (rawSpacing cfg mult price) := rfl
  have hcp : (calculate_grid cfg mult price).center_price = price := rfl
  have hng : (calculate_grid cfg mult price).num_grids = cfg.num_grids := rfl
  have hlev : (calculate_grid cfg mult price).levels
      = (List.range (cfg.num_grids + 1)).filterMap (fun (i : ℕ) =>
          if round2 (rawLower cfg mult price + (i : ℚ) * rawSpacing cfg mult price)
              < price then
            some { price := round2 (rawLower cfg mult price
                     + (i : ℚ) * rawSpacing cfg mult price),
                   side := GridSide.buy, index := i }
          else if price < round2 (rawLower cfg mult price
              + (i : ℚ) * rawSpacing cfg mult price) then
            some { price := round2 (rawLower cfg mult price
                     + (i : ℚ) * rawSpacing cfg mult price),
                   side := GridSide.sell, index := i }
          else none) := rfl
  have hmem : ∀ l ∈ (calculate_grid cfg mult price).levels,
      ∃ i : ℕ, i ≤ cfg.num_grids ∧
        l.price = round2 (rawLower cfg mult price
          + (i : ℚ) * rawSpacing cfg mult price) ∧
        ((l.side = GridSide.buy ∧ l.price < price) ∨
         (l.side = GridSide.sell ∧ price < l.price)) := by
    intro l hlmem
    rw [hlev, List.mem_filterMap] at hlmem
    obtain ⟨i, hir, hopt⟩ := hlmem
    rw [List.mem_range] at hir
    refine ⟨i, by omega, ?_⟩
    split at hopt
    · rename_i hlt
      rw [Option.some_inj] at hopt
      subst hopt
      exact ⟨rfl, Or.inl ⟨rfl, hlt⟩⟩
    · split at hopt
      · rename_i hgt
        rw [Option.some_inj] at hopt
        subst hopt
        exact ⟨rfl, Or.inr ⟨rfl, hgt⟩⟩
      · exact absurd hopt (by simp)
  refine ⟨hlow, hupp, hident, ?_, ?_, ?_, ?_⟩
  · rw [hub, hlb, hsp, hng]
    have e1 := round2_sub_le (rawUpper cfg mult price)
    have e2 := round2_sub_le (rawLower cfg mult price)
    have e3 := round2_sub_le (rawSpacing cfg mult price)
    rw [abs_le] at e1 e2 e3 ⊢
    have hgQ : (0 : ℚ) ≤ (cfg.num_grids : ℚ) := le_of_lt hg0
    have hb1 : (cfg.num_grids : ℚ) * (round2 (rawSpacing cfg mult price)
        - rawSpacing cfg mult price) ≤ (cfg.num_grids : ℚ) * (1/200) :=
      mul_le_mul_of_nonneg_left e3.2 hgQ
    have hb2 : (cfg.num_grids : ℚ) * (-(1/200))
        ≤ (cfg.num_grids : ℚ) * (round2 (rawSpacing cfg mult price)
          - rawSpacing cfg mult price) :=
      mul_le_mul_of_nonneg_left e3.1 hgQ
    constructor
    · nlinarith [hident]
    · nlinarith [hident]
  · intro l hlmem
    obtain ⟨i, hig, hpr, _⟩ := hmem l hlmem
    have hiQ : (0 : ℚ) ≤ (i : ℚ) := Nat.cast_nonneg i
    have higQ : (i : ℚ) ≤ (cfg.num_grids : ℚ) := by exact_mod_cast hig
    constructor
    · rw [hlb, hpr]
      apply round2_mono
      nlinarith [mul_nonneg hiQ (le_of_lt hs0)]
    · rw [hub, hpr]
      apply round2_mono
      have : (i : ℚ) * rawSpacing cfg mult price
          ≤ (cfg.num_grids : ℚ) * rawSpacing cfg mult price :=
        mul_le_mul_of_nonneg_right higQ (le_of_lt hs0)
      linarith [hident]
  · intro l hlmem
    obtain ⟨i, _, _, hside⟩ := hmem l hlmem
    rw [hcp]
    rcases hside with ⟨hbuy, hlt⟩ | ⟨hsell, hgt⟩
    · exact ⟨ne_of_lt hlt, Or.inl ⟨hbuy, hlt⟩⟩
    · exact ⟨ne_of_gt hgt, Or.inr ⟨hsell, hgt⟩⟩
  · norm_num [calculate_grid, round2, roundHalfEven, List.range_succ,
      List.filterMap_cons]

/-- C1 witness: the amended invariants evaluated at the spec's example
configuration. -/
theorem c1_grid_geometry_witness :
    rawLower
      { num_grids := 10, upper_bound_pct := 2, lower_bound_pct := 2,
        order_size_usdt := 50, max_open_orders := 30 } 1 50000 < 50000 ∧
    (50000 : ℚ) < rawUpper
      { num_grids := 10, upper_bound_pct := 2,
        lower_bound_pct := 2, order_size_usdt := 50, max_open_orders := 30 } 1 50000 := by
  have h := c1_grid_geometry
    { num_grids := 10, upper_bound_pct := 2, lower_bound_pct := 2,
      order_size_usdt := 50, max_open_orders := 30 } 1 50000
    (by norm_num) (by norm_num) (by norm_num) (by norm_num) (by norm_num)
    (by norm_num)
  exact ⟨h.1, h.2.1⟩

/-! ### C2 -/

/-- C2 (counterexample): a BUY fill at a level whose price equals
`lower_bound` yields a counter (the claim says it yields none): on the
50000-centered grid (bounds 49000/51000, spacing 200), a BUY fill at
49000 returns a SELL counter at 49200. -/
theorem c2_buy_at_lower_bound_has_counter :
    get_counter_order
      { num_grids := 10, upper_bound_pct := 2, lower_bound_pct := 2,
        order_size_usdt := 50, max_open_orders := 30 }
      { levels := [], center_price := 50000, upper_bound := 51000,
        lower_bound := 49000, num_grids := 10, spacing := 200 }
      { price := 49000, side := GridSide.buy, index := 0 }
      = some { side := GridSide.sell, price := 49200,
               amount := 50813/50000000, source_index := 0 } := by
  norm_num [get_counter_order, round2, round8, roundHalfEven]

/-- C2 (amended): `get_counter_order` returns nothing exactly when the
counter price (`price + spacing` for a BUY fill, `price - spacing` for a
SELL fill) lies outside `[lower_bound, upper_bound]`; inside the band, a
BUY fill yields a SELL counter at `price + spacing` with amount
`order_size_usdt / counter_price` (price rounded to 2 and amount to 8
decimals) and a SELL fill the mirror-image BUY counter; in particular a
SELL fill at a level whose price equals `lower_bound` (with positive
spacing) yields no counter. -/
theorem c2_counter_order_rule (cfg : GridEngineCfg) (st : GridState)
    (lvl : GridLevel) :
    (get_counter_order cfg st lvl = none ↔
      counterPrice st lvl < st.lower_bound ∨ st.upper_bound < counterPrice st lvl) ∧
    (lvl.side = GridSide.buy → st.lower_bound ≤ lvl.price + st.spacing →
        lvl.price + st.spacing ≤ st.upper_bound →
      get_counter_order cfg st lvl
        = some { side := GridSide.sell, price := round2 (lvl.price + st.spacing),
                 amount := round8 (cfg.order_size_usdt / (lvl.price + st.spacing)),
                 source_index := lvl.index }) ∧
    (lvl.side = GridSide.sell → st.lower_bound ≤ lvl.price - st.spacing →
        lvl.price - st.spacing ≤ st.upper_bound →
      get_counter_order cfg st lvl
        = some { side := GridSide.buy, price := round2 (lvl.price - st.spacing),
                 amount := round8 (cfg.order_size_usdt / (lvl.price - st.spacing)),
                 source_index := lvl.index }) ∧
    (lvl.side = GridSide.sell → lvl.price = st.lower_bound → 0 < st.spacing →
      get_counter_order cfg st lvl = none) := by
  refine ⟨?_, ?_, ?_, ?_⟩
  · simp only [get_counter_order, counterPrice]
    by_cases hcond : (if lvl.side = GridSide.buy then lvl.price + st.spacing
        else lvl.price - st.spacing) < st.lower_bound ∨
        st.upper_bound < (if lvl.side = GridSide.buy then lvl.price + st.spacing
        else lvl.price - st.spacing)
    · rw [if_pos hcond]
      simp [hcond]
    · rw [if_neg hcond]
      simp [hcond]
  · intro hb hlo hhi
    have hcond : ¬ (lvl.price + st.spacing < st.lower_bound ∨
        st.upper_bound < lvl.price + st.spacing) := by
      push_neg
      exact ⟨hlo, hhi⟩
    simp [get_counter_order, hb, hcond]
  · intro hs hlo hhi
    have hside : lvl.side ≠ GridSide.buy := by
      rw [hs]
      intro hcontra
      exact absurd hcontra (by intro hx; cases hx)
    have hcond : ¬ (lvl.price - st.spacing < st.lower_bound ∨
        st.upper_bound < lvl.price - st.spacing) := by
      push_neg
      exact ⟨hlo, hhi⟩
    simp [get_counter_order, hside, hcond]
  · intro hs heq hsp
    have hside : lvl.side ≠ GridSide.buy := by
      rw [hs]
      intro hcontra
      exact absurd hcontra (by intro hx; cases hx)
    have hlt : lvl.price - st.spacing < st.lower_bound := by
      rw [heq]
      linarith
    simp [get_counter_order, hside, hlt]

/-- C2 witness: the amended rule evaluated on the spec's example — a BUY
fill at 49600 with spacing 200 yields a SELL counter at 49800 with
amount `round8 (50 / 49800)`. -/
theorem c2_counter_order_rule_witness :
    get_counter_order
      { num_grids := 10, upper_bound_pct := 2, lower_bound_pct := 2,
        order_size_usdt := 50, max_open_orders := 30 }
      { levels := [], center_price := 50000, upper_bound := 51000,
        lower_bound := 49000, num_grids := 10, spacing := 200 }
      { price := 49600, side := GridSide.buy, index := 3 }
      = some { side := GridSide.sell, price := 49800,
               amount := 50201/50000000, source_index := 3 } := by
  have h := (c2_counter_order_rule
    { num_grids := 10, upper_bound_pct := 2, lower_bound_pct := 2,
      order_size_usdt := 50, max_open_orders := 30 }
    { levels := [], center_price := 50000, upper_bound := 51000,
      lower_bound := 49000, num_grids := 10, spacing := 200 }
    { price := 49600, side := GridSide.buy, index := 3 }).2.1
    rfl (by norm_num) (by norm_num)
  rw [h]
  norm_num [round2, round8, roundHalfEven]

/-! ### C3 -/

theorem pySliceTo_eq_take {α : Type} (l : List α) (n : ℤ) :
    ∃ m : ℕ, pySliceTo l n = l.take m := by
  unfold pySliceTo
  split
  · exact ⟨n.toNat, rfl⟩
  · exact ⟨l.length - n.natAbs, rfl⟩

/-- C3 (counterexample): `get_orders_to_place` does not order by distance
from center — on the 50000-centered grid it returns the pending levels in
grid-index (price-ascending) order, whose first element (49000, distance
1000) is farther from the center than its second (49200, distance 800);
and when more levels are active than `max_open_orders` allows (7 active,
cap 5), the Python negative-slice still returns a level, so
active + returned = 8 > 5. -/
theorem c3_order_and_truncation_violated :
    (¬ List.Sorted
        (fun a b =>
          centerDistance (calculate_grid
            { num_grids := 10, upper_bound_pct := 2, lower_bound_pct := 2,
              order_size_usdt := 50, max_open_orders := 30 } 1 50000) a ≤
          centerDistance (calculate_grid
            { num_grids := 10, upper_bound_pct := 2, lower_bound_pct := 2,
              order_size_usdt := 50, max_open_orders := 30 } 1 50000) b)
        (get_orders_to_place
          { num_grids := 10, upper_bound_pct := 2, lower_bound_pct := 2,
            order_size_usdt := 50, max_open_orders := 30 } false
          (calculate_grid
            { num_grids := 10, upper_bound_pct := 2, lower_bound_pct := 2,
              order_size_usdt := 50, max_open_orders := 30 } 1 50000))) ∧
    (let stB : GridState :=
      { levels :=
          [{ price := 1, side := GridSide.buy, index := 0, is_active := true },
           { price := 2, side := GridSide.buy, index := 1, is_active := true },
           { price := 3, side := GridSide.buy, index := 2, is_active := true },
           { price := 4, side := GridSide.buy, index := 3, is_active := true },
           { price := 5, side := GridSide.buy, index := 4, is_active := true },
           { price := 6, side := GridSide.sell, index := 5, is_active := true },
           { price := 7, side := GridSide.sell, index := 6, is_active := true },
           { price := 8, side := GridSide.sell, index := 7 },
           { price := 9, side := GridSide.sell, index := 8 },
           { price := 10, side := GridSide.sell, index := 9 }],
        center_price := 5, upper_bound := 10, lower_bound := 1,
        num_grids := 9, spacing := 1 }
     (stB.levels.filter fun l => l.is_active).length
       + (get_orders_to_place
           { num_grids := 9, upper_bound_pct := 2, lower_bound_pct := 2,
             order_size_usdt := 50, max_open_orders := 5 } false stB).length
       > 5) := by
  constructor
  · intro hsorted
    have hr : get_orders_to_place
        { num_grids := 10, upper_bound_pct := 2, lower_bound_pct := 2,
          order_size_usdt := 50, max_open_orders := 30 } false
        (calculate_grid
          { num_grids := 10, upper_bound_pct := 2, lower_bound_pct := 2,
            order_size_usdt := 50, max_open_orders := 30 } 1 50000)
        = [{ price := 49000, side := GridSide.buy, index := 0 },
           { price := 49200, side := GridSide.buy, index := 1 },
           { price := 49400, side := GridSide.buy, index := 2 },
           { price := 49600, side := GridSide.buy, index := 3 },
           { price := 49800, side := GridSide.buy, index := 4 },
           { price := 50200, side := GridSide.sell, index := 6 },
           { price := 50400, side := GridSide.sell, index := 7 },
           { price := 50600, side := GridSide.sell, index := 8 },
           { price := 50800, side := GridSide.sell, index := 9 },
           { price := 51000, side := GridSide.sell, index := 10 }] := by
      norm_num [get_orders_to_place, calculate_grid, round2, roundHalfEven,
        List.range_succ, List.filterMap_cons, pySliceTo, List.filter]
    rw [hr] at hsorted
    have hfirst := (List.sorted_cons.mp hsorted).1
    have h2 := hfirst { price := 49200, side := GridSide.buy, index := 1 } (by simp)
    have hc : centerDistance (calculate_grid
        { num_grids := 10, upper_bound_pct := 2, lower_bound_pct := 2,
          order_size_usdt := 50, max_open_orders := 30 } 1 50000)
        { price := 49000, side := GridSide.buy, index := 0 } = 1000 := by
      norm_num [centerDistance, calculate_grid, abs_of_nonpos]
    have hc' : centerDistance (calculate_grid
        { num_grids := 10, upper_bound_pct := 2, lower_bound_pct := 2,
          order_size_usdt := 50, max_open_orders := 30 } 1 50000)
        { price := 49200, side := GridSide.buy, index := 1 } = 800 := by
      norm_num [centerDistance, calculate_grid, abs_of_nonpos]
    rw [hc, hc'] at h2
    norm_num at h2
  · norm_num [get_orders_to_place, pySliceTo, List.filter]

/-- C3 (amended): for every grid state, `get_orders_to_place` returns a
prefix of the levels with `is_active=false ∧ filled=false` taken in grid
(index/price-ascending) order — not sorted by distance from center; when
the active count does not exceed `max_open_orders`, the count of active
levels plus the count of returned levels is at most `max_open_orders`;
and whenever the engine is paused it returns the empty sequence. -/
theorem c3_orders_to_place_rule (cfg : GridEngineCfg) (st : GridState) :
    get_orders_to_place cfg true st = [] ∧
    (∀ l ∈ get_orders_to_place cfg false st, l.is_active = false ∧ l.filled = false) ∧
    (∃ m : ℕ, get_orders_to_place cfg false st
        = (st.levels.filter fun l => !l.is_active && !l.filled).take m) ∧
    ((st.levels.filter fun l => l.is_active).length ≤ cfg.max_open_orders →
      (st.levels.filter fun l => l.is_active).length
        + (get_orders_to_place cfg false st).length ≤ cfg.max_open_orders) := by
  have hfalse : get_orders_to_place cfg false st
      = pySliceTo (st.levels.filter fun l => !l.is_active && !l.filled)
          ((cfg.max_open_orders : ℤ) - (st.levels.filter fun l => l.is_active).length) := by
    simp [get_orders_to_place]
  refine ⟨rfl, ?_, ?_, ?_⟩
  · intro l hl
    rw [hfalse] at hl
    rcases pySliceTo_eq_take
      (st.levels.filter fun l => !l.is_active && !l.filled)
      ((cfg.max_open_orders : ℤ) - (st.levels.filter fun l => l.is_active).length)
      with ⟨m, hm⟩
    rw [hm] at hl
    have hl' := List.take_subset m _ hl
    have := List.of_mem_filter hl'
    simp only [Bool.and_eq_true, Bool.not_eq_true'] at this
    exact this
  · rw [hfalse]
    exact pySliceTo_eq_take _ _
  · intro hac
    rw [hfalse]
    have hnn : 0 ≤ (cfg.max_open_orders : ℤ)
        - (st.levels.filter fun l => l.is_active).length := by
      omega
    unfold pySliceTo
    rw [if_pos hnn]
    have hlen := List.length_take
      (((cfg.max_open_orders : ℤ)
        - (st.levels.filter fun l => l.is_active).length).toNat)
      (st.levels.filter fun l => !l.is_active && !l.filled)
    omega

/-- C3 witness: the amended rule evaluated on the 50000-centered grid. -/
theorem c3_orders_to_place_rule_witness :
    ((calculate_grid
      { num_grids := 10, upper_bound_pct := 2, lower_bound_pct := 2,
        order_size_usdt := 50, max_open_orders := 30 } 1 50000).levels.filter
        (fun l => l.is_active)).length ≤ 30 ∧
    ((calculate_grid
      { num_grids := 10, upper_bound_pct := 2, lower_bound_pct := 2,
        order_size_usdt := 50, max_open_orders := 30 } 1 50000).levels.filter
        (fun l => l.is_active)).length
      + (get_orders_to_place
          { num_grids := 10, upper_bound_pct := 2, lower_bound_pct := 2,
            order_size_usdt := 50, max_open_orders := 30 } false
          (calculate_grid
            { num_grids := 10, upper_bound_pct := 2, lower_bound_pct := 2,
              order_size_usdt := 50, max_open_orders := 30 } 1 50000)).length ≤ 30 := by
  have h := (c3_orders_to_place_rule
    { num_grids := 10, upper_bound_pct := 2, lower_bound_pct := 2,
      order_size_usdt := 50, max_open_orders := 30 }
    (calculate_grid
      { num_grids := 10, upper_bound_pct := 2, lower_bound_pct := 2,
        order_size_usdt := 50, max_open_orders := 30 } 1 50000)).2.2.2
  have hac : ((calculate_grid
      { num_grids := 10, upper_bound_pct := 2, lower_bound_pct := 2,
        order_size_usdt := 50, max_open_orders := 30 } 1 50000).levels.filter
        (fun l => l.is_active)).length ≤ 30 := by
    norm_num [calculate_grid, round2, roundHalfEven, List.range_succ,
      List.filterMap_cons, List.filter]
  exact ⟨hac, h hac⟩

/-! ### C4 -/

theorem evaluate_preserves_paused (cfg : RiskCfg) (s : RiskMgrState)
    (inp : RiskInput) (h : s.paused = true) :
    ((evaluate cfg s inp).1).paused = true := by
  unfold evaluate
  dsimp only
  split
  · rfl
  · exact h

theorem evalSeq_preserves_paused (cfg : RiskCfg) (inps : List RiskInput) :
    ∀ s : RiskMgrState, s.paused = true → (evalSeq cfg s inps).paused = true := by
  induction inps with
  | nil => intro s h; exact h
  | cons i t ih =>
    intro s h
    rw [evalSeq, List.foldl_cons]
    exact ih _ (evaluate_preserves_paused cfg s i h)

/-- C4: once an `evaluate` call returns overall action PAUSE or
EMERGENCY_STOP, the manager is paused with `pause_reason` the
semicolon-joined messages of the breached checks, the returned status
reflects that, the latch survives every later sequence of `evaluate`
calls (so `can_place_order()` stays false), and only `reset_pause()`
clears the flag and the reason. -/
theorem c4_pause_latch (cfg : RiskCfg) (s : RiskMgrState) (inp : RiskInput)
    (h : (evaluate cfg s inp).2.overall_action = RiskAction.PAUSE ∨
         (evaluate cfg s inp).2.overall_action = RiskAction.EMERGENCY_STOP) :
    ((evaluate cfg s inp).1).paused = true ∧
    ((evaluate cfg s inp).1).pause_reason
      = String.intercalate "; "
          (((riskChecks cfg inp).filter isBreached).map fun c => c.message) ∧
    (evaluate cfg s inp).2.paused = true ∧
    (evaluate cfg s inp).2.pause_reason = ((evaluate cfg s inp).1).pause_reason ∧
    (∀ inps, (evalSeq cfg (evaluate cfg s inp).1 inps).paused = true ∧
             can_place_order (evalSeq cfg (evaluate cfg s inp).1 inps) = false) ∧
    reset_pause.paused = false ∧ reset_pause.pause_reason = "" := by
  have hpaused : ((evaluate cfg s inp).1).paused = true := by
    unfold evaluate at h ⊢
    dsimp only at h ⊢
    rw [if_pos h]
  have hreason : ((evaluate cfg s inp).1).pause_reason
      = String.intercalate "; "
          (((riskChecks cfg inp).filter isBreached).map fun c => c.message) := by
    unfold evaluate at h ⊢
    dsimp only at h ⊢
    rw [if_pos h]
  refine ⟨hpaused, hreason, hpaused, rfl, ?_, rfl, rfl⟩
  intro inps
  have hseq := evalSeq_preserves_paused cfg inps _ hpaused
  refine ⟨hseq, ?_⟩
  unfold can_place_order
  rw [hseq]
  rfl

/-- C4 witness: with the default thresholds, an evaluation at drawdown
20% trips EMERGENCY_STOP; pausing persists across a later all-clear
evaluation. -/
theorem c4_pause_latch_witness :
    (evalSeq {}
      ((evaluate {} {}
        { drawdown_pct := 20, capital_deployed_pct := 0, daily_pnl := 0,
          daily_order_count := 0, total_fees := 0, initial_capital := 0 }).1)
      [{ drawdown_pct := 0, capital_deployed_pct := 0, daily_pnl := 0,
         daily_order_count := 0, total_fees := 0, initial_capital := 0 }]).paused
      = true := by
  have h := c4_pause_latch {} {}
    { drawdown_pct := 20, capital_deployed_pct := 0, daily_pnl := 0,
      daily_order_count := 0, total_fees := 0, initial_capital := 0 }
    (by
      right
      norm_num [evaluate, riskChecks, check_drawdown, check_capital_deployed,
        check_daily_loss, check_order_count, check_fees, escalate, riskPriority])
  exact (h.2.2.2.2.1
    [{ drawdown_pct := 0, capital_deployed_pct := 0, daily_pnl := 0,
       daily_order_count := 0, total_fees := 0, initial_capital := 0 }]).1

/-! ### C5 -/

/-- C5 (code_bug): `record_buy` applies no cash pre-check, and the BUY
placement path of the control loop gates only on the risk latch, so a
recorded buy can drive `current_capital` below zero: from a ledger
holding 10 USDT, recording a buy of 1 unit at price 100 with zero fee
leaves `current_capital = -90 < 0`. -/
theorem c5_record_buy_negative_cash :
    (record_buy (initTracker 10) 100 1 0).current_capital = -90 ∧
    (record_buy (initTracker 10) 100 1 0).current_capital < 0 := by
  constructor
  · norm_num [record_buy, initTracker]
  · norm_num [record_buy, initTracker]

/-! ### C7 -/

/-- C7 (counterexample): the fill handler's fee is
`price * amount * 0.001` even when the order record carries a
venue-reported fee: on a buy record with price 100, amount 1 and
venue-reported `fee = 5`, the handler computes fee `0.1 ≠ 5` and debits
the ledger accordingly. -/
theorem c7_fee_ignores_venue_fee :
    handleFillFee { order_id := "O1", side := "buy", price := 100, amount := 1,
                    status := "closed", grid_index := 0, fee := 5 } = 1/10 ∧
    ((1 : ℚ)/10) ≠ 5 ∧
    (handleFillPosition (initTracker 1000)
      { order_id := "O1", side := "buy", price := 100, amount := 1,
        status := "closed", grid_index := 0, fee := 5 }).current_capital
      = 1000 - (100 * 1 + 1/10) := by
  refine ⟨by norm_num [handleFillFee], by norm_num, ?_⟩
  norm_num [handleFillPosition, handleFillFee, record_buy, initTracker]

/-- C7 (amended): when the control-loop fill handler processes a BUY
fill, the fee passed to `record_buy` is always
`record.price * record.amount * 0.001`; the venue-reported fee stored on
the order record is never consulted (changing it does not change the
handler's result). -/
theorem c7_handler_fee_is_default (pos : TrackerState) (rec : OrderRecord)
    (h : rec.side = "buy") :
    handleFillFee rec = rec.price * rec.amount * (1/1000) ∧
    (handleFillPosition pos rec).current_capital
      = pos.current_capital - (rec.price * rec.amount + rec.price * rec.amount * (1/1000)) ∧
    ∀ f', handleFillPosition pos { rec with fee := f' } = handleFillPosition pos rec := by
  refine ⟨rfl, ?_, ?_⟩
  · simp [handleFillPosition, handleFillFee, record_buy, h]
  · intro f'
    simp [handleFillPosition, handleFillFee, record_buy, record_sell, h]

/-- C7 witness: the amended fact evaluated on a concrete buy record. -/
theorem c7_handler_fee_is_default_witness :
    (handleFillPosition (initTracker 1000)
      { order_id := "B", side := "buy", price := 200, amount := 2,
        status := "closed", grid_index := 1 }).current_capital
      = (initTracker 1000).current_capital - (200 * 2 + 200 * 2 * (1/1000)) :=
  (c7_handler_fee_is_default (initTracker 1000)
    { order_id := "B", side := "buy", price := 200, amount := 2,
      status := "closed", grid_index := 1 } rfl).2.1

/-! ### C8 -/

/-- C8 (counterexample): `drawdown_pct` is not clamped at zero: on a
ledger with `peak_capital = 100` and `current_capital = 120` it returns
`-20`, while `max 0 ((peak - current)/peak * 100) = 0`. -/
theorem c8_drawdown_not_clamped :
    drawdown_pct { initial_capital := 100, current_capital := 120,
                   peak_capital := 100 } = -20 ∧
    max 0 (((100 : ℚ) - 120) / 100 * 100) = 0 := by
  constructor
  · norm_num [drawdown_pct]
  · norm_num

/-- C8 (amended): on every ledger state with
`current_capital ≤ peak_capital` — which includes every state reachable
through `initialize` / `record_buy` (with nonnegative cost) /
`record_sell`, since those preserve the inequality —
`drawdown_pct()` equals `max 0 ((peak - current)/peak * 100)` and is
nonnegative; for arbitrary (e.g. externally restored) states with
`current_capital > peak_capital` it is negative. -/
theorem c8_drawdown_formula (s : TrackerState)
    (h : s.current_capital ≤ s.peak_capital) :
    drawdown_pct s = max 0 ((s.peak_capital - s.current_capital) / s.peak_capital * 100) ∧
    0 ≤ drawdown_pct s ∧
    (∀ price amount fee : ℚ, 0 ≤ price * amount + fee →
      (record_buy s price amount fee).current_capital
        ≤ (record_buy s price amount fee).peak_capital) ∧
    (∀ price amount fee : ℚ,
      (record_sell s price amount fee).current_capital
        ≤ (record_sell s price amount fee).peak_capital) := by
  have hmain : drawdown_pct s
      = max 0 ((s.peak_capital - s.current_capital) / s.peak_capital * 100) := by
    unfold drawdown_pct
    rcases le_or_lt s.peak_capital 0 with hp | hp
    · rw [if_pos hp]
      rcases eq_or_lt_of_le hp with hp0 | hpneg
      · rw [hp0]
        simp
      · have hnum : 0 ≤ s.peak_capital - s.current_capital := by linarith
        have hdiv : (s.peak_capital - s.current_capital) / s.peak_capital ≤ 0 :=
          div_nonpos_of_nonneg_of_nonpos hnum (le_of_lt hpneg)
        have : (s.peak_capital - s.current_capital) / s.peak_capital * 100 ≤ 0 := by
          nlinarith
        exact (max_eq_left this).symm
    · rw [if_neg (not_le.mpr hp)]
      have hnum : 0 ≤ s.peak_capital - s.current_capital := by linarith
      have hdiv : 0 ≤ (s.peak_capital - s.current_capital) / s.peak_capital :=
        div_nonneg hnum (le_of_lt hp)
      have : 0 ≤ (s.peak_capital - s.current_capital) / s.peak_capital * 100 := by
        nlinarith
      exact (max_eq_right this).symm
  refine ⟨hmain, ?_, ?_, ?_⟩
  · rw [hmain]
    exact le_max_left 0 _
  · intro price amount fee hcost
    simp only [record_buy]
    linarith
  · intro price amount fee
    simp only [record_sell]
    split
    · exact le_refl _
    · rename_i hpk
      push_neg at hpk
      exact hpk

/-- C8 witness: the amended formula evaluated on a concrete ledger
(capital 100, then a buy of 1 unit at price 10). -/
theorem c8_drawdown_formula_witness :
    drawdown_pct { initial_capital := 100, current_capital := 90,
                   peak_capital := 100 }
      = max 0 (((100 : ℚ) - 90) / 100 * 100) :=
  (c8_drawdown_formula
    { initial_capital := 100, current_capital := 90, peak_capital := 100 }
    (by norm_num)).1

/-! ### C6 -/

theorem mem_keys_of_lookup_some {β : Type} {l : List (String × β)} {k : String}
    {v : β} (h : l.lookup k = some v) : k ∈ l.map Prod.fst := by
  induction l with
  | nil => exact absurd h (by simp)
  | cons p t ih =>
    rcases p with ⟨a, b⟩
    by_cases hka : k = a
    · simp [hka]
    · have hka' : (k == a) = false := beq_eq_false_iff_ne.mpr hka
      rw [lookup_cons_of_ne hka'] at h
      simp [ih h]

theorem check_order_status_ok (fetch : String → Except Unit FetchResult)
    (now : String) (orders : List (String × OrderRecord)) (oid : String)
    (r : FetchResult) (h : fetch oid = Except.ok r) :
    check_order_status fetch now orders oid
      = (some (r.status.getD "unknown"),
         updateKey (fun rec => applyStatusUpdate rec (r.status.getD "unknown")
           r.feeCost now) oid orders) := by
  simp [check_order_status, h]

theorem check_order_status_lookup_ne (fetch : String → Except Unit FetchResult)
    (now : String) (orders : List (String × OrderRecord)) (k oid : String)
    (h : oid ≠ k) :
    ((check_order_status fetch now orders k).2).lookup oid = orders.lookup oid := by
  unfold check_order_status
  cases hf : fetch k with
  | error e => rfl
  | ok r =>
    dsimp only
    exact lookup_updateKey_ne _ k oid orders h

theorem reconcileGo_lookup_of_not_mem (ids : List String)
    (fetch : String → Except Unit FetchResult) (now : String)
    (keys : List String) (oid : String) (hkeys : oid ∉ keys) :
    ∀ orders : List (String × OrderRecord),
      ((reconcileGo ids fetch now keys orders).2).lookup oid = orders.lookup oid := by
  induction keys with
  | nil => intro orders; rfl
  | cons k rest ih =>
    intro orders
    have hne : oid ≠ k := fun hc => hkeys (hc ▸ List.mem_cons_self k rest)
    have hrest : oid ∉ rest := fun hc => hkeys (List.mem_cons_of_mem k hc)
    cases hlk : orders.lookup k with
    | none => simp only [reconcileGo, hlk]; exact ih hrest orders
    | some rec =>
      by_cases hcond : rec.status = "open" ∧ k ∉ ids
      · simp only [reconcileGo, hlk, if_pos hcond]
        rw [ih hrest]
        exact check_order_status_lookup_ne fetch now orders k oid hne
      · simp only [reconcileGo, hlk, if_neg hcond]
        exact ih hrest orders

theorem reconcileGo_not_reported_of_not_open (ids : List String)
    (fetch : String → Except Unit FetchResult) (now : String)
    (keys : List String) (oid : String) :
    ∀ orders : List (String × OrderRecord),
      (∀ r, orders.lookup oid = some r → r.status ≠ "open") →
      oid ∉ (reconcileGo ids fetch now keys orders).1 := by
  induction keys with
  | nil => intro orders _; simp [reconcileGo]
  | cons k rest ih =>
    intro orders hnot
    cases hlk : orders.lookup k with
    | none =>
      simp only [reconcileGo, hlk]
      exact ih orders hnot
    | some rec =>
      by_cases hcond : rec.status = "open" ∧ k ∉ ids
      · have hne : oid ≠ k := by
          intro hc
          subst hc
          exact hnot rec hlk hcond.1
        simp only [reconcileGo, hlk, if_pos hcond]
        have hnot' : ∀ r,
            ((check_order_status fetch now orders k).2).lookup oid = some r →
            r.status ≠ "open" := by
          intro r hr
          rw [check_order_status_lookup_ne fetch now orders k oid hne] at hr
          exact hnot r hr
        have hmem := ih _ hnot'
        split
        · intro hc
          rcases List.mem_cons.mp hc with hc1 | hc2
          · exact hne hc1
          · exact hmem hc2
        · exact hmem
      · simp only [reconcileGo, hlk, if_neg hcond]
        exact ih orders hnot

theorem reconcileGo_reports_closed (ids : List String)
    (fetch : String → Except Unit FetchResult) (now : String)
    (keys : List String) (oid : String) (rec : OrderRecord) (r : FetchResult)
    (hfetch : fetch oid = Except.ok r) (hst : r.status = some "closed")
    (hids : oid ∉ ids) :
    ∀ orders : List (String × OrderRecord),
      keys.count oid = 1 →
      orders.lookup oid = some rec →
      rec.status = "open" →
      (reconcileGo ids fetch now keys orders).1.count oid = 1 ∧
      ((reconcileGo ids fetch now keys orders).2).lookup oid
        = some { rec with
                 status := "closed"
                 filled_at := some now
                 fee := r.feeCost.getD 0 } := by
  induction keys with
  | nil => intro orders hcount; simp at hcount
  | cons k rest ih =>
    intro orders hcount hlk hopen
    by_cases hk : k = oid
    · subst hk
      have hrest : k ∉ rest := by
        have : rest.count k = 0 := by
          rw [List.count_cons_self] at hcount
          omega
        exact (List.count_eq_zero.mp this)
      have hcond : rec.status = "open" ∧ k ∉ ids := ⟨hopen, hids⟩
      have hchk := check_order_status_ok fetch now orders k r hfetch
      have hgetd : r.status.getD "unknown" = "closed" := by rw [hst]; rfl
      have hupd : applyStatusUpdate rec (r.status.getD "unknown") r.feeCost now
          = { rec with
              status := "closed"
              filled_at := some now
              fee := r.feeCost.getD 0 } := by
        rw [hgetd]
        unfold applyStatusUpdate
        rw [if_pos rfl]
      have hlk' : ((check_order_status fetch now orders k).2).lookup k
          = some { rec with
                   status := "closed"
                   filled_at := some now
                   fee := r.feeCost.getD 0 } := by
        rw [hchk]
        dsimp only
        rw [← hupd]
        exact lookup_updateKey_self _ k orders rec hlk
      have hstatus : (check_order_status fetch now orders k).1 = some "closed" := by
        rw [hchk, hgetd]
      simp only [reconcileGo, hlk, if_pos hcond, hstatus]
      constructor
      · have hnotin : k ∉ (reconcileGo ids fetch now rest
            (check_order_status fetch now orders k).2).1 := by
          apply reconcileGo_not_reported_of_not_open
          intro r' hr'
          rw [hlk'] at hr'
          rw [Option.some_inj] at hr'
          rw [← hr']
          intro hcontra
          simp at hcontra
        rw [if_pos trivial, List.count_cons_self, List.count_eq_zero.mpr hnotin]
      · dsimp only
        rw [reconcileGo_lookup_of_not_mem ids fetch now rest k hrest]
        exact hlk'
    · have hne : oid ≠ k := fun hc => hk hc.symm
      have hcount' : rest.count oid = 1 := by
        simpa [List.count_cons, hk] using hcount
      cases hlkk : orders.lookup k with
      | none =>
        simp only [reconcileGo, hlkk]
        exact ih orders hcount' hlk hopen
      | some reck =>
        by_cases hcond : reck.status = "open" ∧ k ∉ ids
        · simp only [reconcileGo, hlkk, if_pos hcond]
          have hlk2 : ((check_order_status fetch now orders k).2).lookup oid
              = some rec := by
            rw [check_order_status_lookup_ne fetch now orders k oid hne]
            exact hlk
          have hih := ih _ hcount' hlk2 hopen
          constructor
          · split
            · rw [List.count_cons]
              simp only [beq_iff_eq]
              rw [if_neg hk]
              simpa using hih.1
            · exact hih.1
          · exact hih.2
        · simp only [reconcileGo, hlkk, if_neg hcond]
          exact ih orders hcount' hlk hopen

/-- C6: if the venue's open-order set omits an order that is locally
OPEN and polling it reports closed, `reconcile_orders` returns that id
exactly once, the local record becomes closed with `filled_at` stamped
and the venue-reported fee captured, and no subsequent
`reconcile_orders` call — whatever its mode, venue snapshot or poll
results — ever returns it again. -/
theorem c6_reconcile_reports_exactly_once
    (orders : List (String × OrderRecord)) (oid : String) (rec : OrderRecord)
    (venueOpen : List String) (fetch : String → Except Unit FetchResult)
    (now : String) (r : FetchResult)
    (hnodup : (orders.map Prod.fst).Nodup)
    (hlk : orders.lookup oid = some rec)
    (hopen : rec.status = "open")
    (hnot : oid ∉ venueOpen)
    (hfetch : fetch oid = Except.ok r)
    (hst : r.status = some "closed") :
    (reconcile_orders false (Except.ok venueOpen) fetch now orders).1.count oid = 1 ∧
    oid ∈ (reconcile_orders false (Except.ok venueOpen) fetch now orders).1 ∧
    ((reconcile_orders false (Except.ok venueOpen) fetch now orders).2).lookup oid
      = some { rec with
               status := "closed"
               filled_at := some now
               fee := r.feeCost.getD 0 } ∧
    ∀ (dr : Bool) (venueOpen' : Except Unit (List String))
        (fetch' : String → Except Unit FetchResult) (now' : String),
      oid ∉ (reconcile_orders dr venueOpen' fetch' now'
        (reconcile_orders false (Except.ok venueOpen) fetch now orders).2).1 := by
  have hrw : reconcile_orders false (Except.ok venueOpen) fetch now orders
      = reconcileGo venueOpen fetch now (orders.map Prod.fst) orders := by
    simp [reconcile_orders]
  have hkeys : (orders.map Prod.fst).count oid = 1 :=
    List.count_eq_one_of_mem hnodup (mem_keys_of_lookup_some hlk)
  have hmain := reconcileGo_reports_closed venueOpen fetch now
    (orders.map Prod.fst) oid rec r hfetch hst hnot orders hkeys hlk hopen
  rw [hrw]
  have hmem : oid ∈ (reconcileGo venueOpen fetch now (orders.map Prod.fst) orders).1 := by
    by_contra hc
    rw [List.count_eq_zero.mpr hc] at hmain
    exact absurd hmain.1 (by norm_num)
  refine ⟨hmain.1, hmem, hmain.2, ?_⟩
  intro dr venueOpen' fetch' now'
  cases dr with
  | true => simp [reconcile_orders]
  | false =>
    cases venueOpen' with
    | error e => simp [reconcile_orders]
    | ok ids2 =>
      have hrw2 : reconcile_orders false (Except.ok ids2) fetch' now'
          (reconcileGo venueOpen fetch now (orders.map Prod.fst) orders).2
          = reconcileGo ids2 fetch' now'
              (((reconcileGo venueOpen fetch now (orders.map Prod.fst) orders).2).map Prod.fst)
              (reconcileGo venueOpen fetch now (orders.map Prod.fst) orders).2 := by
        simp [reconcile_orders]
      rw [hrw2]
      apply reconcileGo_not_reported_of_not_open
      intro r' hr'
      rw [hmain.2] at hr'
      rw [Option.some_inj] at hr'
      rw [← hr']
      intro hcontra
      simp at hcontra

/-- C6 witness: local OPEN `{O1, O2}`, venue reports open `{O2}` and
polling O1 yields closed with fee 0.5: exactly O1 is returned, its
record becomes closed, and a subsequent reconciliation (with an empty
venue snapshot and failing polls) does not return it. -/
theorem c6_reconcile_reports_exactly_once_witness :
    (reconcile_orders false (Except.ok ["O2"])
      (fun oid => if oid = "O1"
        then Except.ok { status := some "closed", feeCost := some (1/2) }
        else Except.error ()) "t1"
      [("O1", { order_id := "O1", side := "buy", price := 100, amount := 1,
                status := "open", grid_index := 0 }),
       ("O2", { order_id := "O2", side := "sell", price := 200, amount := 1,
                status := "open", grid_index := 1 })]).1.count "O1" = 1 ∧
    ((reconcile_orders false (Except.ok ["O2"])
      (fun oid => if oid = "O1"
        then Except.ok { status := some "closed", feeCost := some (1/2) }
        else Except.error ()) "t1"
      [("O1", { order_id := "O1", side := "buy", price := 100, amount := 1,
                status := "open", grid_index := 0 }),
       ("O2", { order_id := "O2", side := "sell", price := 200, amount := 1,
                status := "open", grid_index := 1 })]).2).lookup "O1"
      = some { order_id := "O1", side := "buy", price := 100, amount := 1,
               status := "closed", grid_index := 0, filled_at := some "t1",
               fee := 1/2 } ∧
    "O1" ∉ (reconcile_orders false (Except.ok [])
      (fun _ => Except.error ()) "t2"
      (reconcile_orders false (Except.ok ["O2"])
        (fun oid => if oid = "O1"
          then Except.ok { status := some "closed", feeCost := some (1/2) }
          else Except.error ()) "t1"
        [("O1", { order_id := "O1", side := "buy", price := 100, amount := 1,
                  status := "open", grid_index := 0 }),
         ("O2", { order_id := "O2", side := "sell", price := 200, amount := 1,
                  status := "open", grid_index := 1 })]).2).1 := by
  have h := c6_reconcile_reports_exactly_once
    [("O1", { order_id := "O1", side := "buy", price := 100, amount := 1,
              status := "open", grid_index := 0 }),
     ("O2", { order_id := "O2", side := "sell", price := 200, amount := 1,
              status := "open", grid_index := 1 })]
    "O1"
    { order_id := "O1", side := "buy", price := 100, amount := 1,
      status := "open", grid_index := 0 }
    ["O2"]
    (fun oid => if oid = "O1"
      then Except.ok { status := some "closed", feeCost := some (1/2) }
      else Except.error ()) "t1"
    { status := some "closed", feeCost := some (1/2) }
    (by simp) (by simp [List.lookup]) rfl (by simp) (by simp) rfl
  exact ⟨h.1, h.2.2.1, h.2.2.2 false (Except.ok []) (fun _ => Except.error ()) "t2"⟩

/-- C9: in dry-run (paper) mode, `reconcile_orders` returns the empty
list for every internal order map, leaves the map untouched, and — being
independent of the venue parameters — invokes no venue callback. -/
theorem c9_dry_run_reconcile_empty :
    ∀ (venueOpen : Except Unit (List String)) (fetch : String → Except Unit FetchResult)
      (now : String) (orders : List (String × OrderRecord)),
      reconcile_orders true venueOpen fetch now orders = ([], orders) := by
  intro venueOpen fetch now orders
  simp [reconcile_orders]

/-! ### C10 -/

/-- C10: live-mode `cancel_order` never propagates an exception: when the
venue cancel fails on all retry attempts it returns `false` and leaves
the local records unchanged; when the venue call succeeds it returns
`true` and sets the local record's status to cancelled. -/
theorem c10_cancel_order_fail_closed (orders : List (String × OrderRecord))
    (oid : String) (rec : OrderRecord) (h : orders.lookup oid = some rec) :
    cancel_order false (Except.error ()) orders oid = (false, orders) ∧
    (cancel_order false (Except.ok ()) orders oid).1 = true ∧
    (cancel_order false (Except.ok ()) orders oid).2.lookup oid
      = some { rec with status := "cancelled" } := by
  refine ⟨by simp [cancel_order], by simp [cancel_order], ?_⟩
  have hlk := lookup_updateKey_self
    (fun r => { r with status := "cancelled" }) oid orders rec h
  simpa [cancel_order, markCancelled] using hlk

/-- C10 witness: concrete one-order map. -/
theorem c10_cancel_order_fail_closed_witness :
    cancel_order false (Except.error ())
      [("O1", { order_id := "O1", side := "buy", price := 100, amount := 1,
                status := "open", grid_index := 0 })] "O1"
      = (false, [("O1", { order_id := "O1", side := "buy", price := 100, amount := 1,
                          status := "open", grid_index := 0 })]) ∧
    (cancel_order false (Except.ok ())
      [("O1", { order_id := "O1", side := "buy", price := 100, amount := 1,
                status := "open", grid_index := 0 })] "O1").2.lookup "O1"
      = some { order_id := "O1", side := "buy", price := 100, amount := 1,
               status := "cancelled", grid_index := 0 } := by
  have h := c10_cancel_order_fail_closed
    [("O1", { order_id := "O1", side := "buy", price := 100, amount := 1,
              status := "open", grid_index := 0 })] "O1"
    { order_id := "O1", side := "buy", price := 100, amount := 1,
      status := "open", grid_index := 0 } (by simp [List.lookup])
  exact ⟨h.1, h.2.2⟩

end GridAI
